import Mathlib

/-!
Verification of the expenses-dashboard client (React/TypeScript) against its
natural-language specification.

The development shallowly embeds the algorithmic parts of the repository:

* the base64 / base64url helpers of `src/services/api.ts`
  (`base64UrlEncode`, `bufferToBase64URL`, `base64URLToBuffer`,
  `arrayBufferToBase64`), with byte buffers as `List Nat` (each < 256) and
  the browser primitives `btoa` / `atob` spelled out as standard base64;
* the JWT construction (`generateJWT`, `getHeaders`) in both its plain and
  encrypted revisions, with the Web-Crypto primitives (HMAC-SHA-256 and
  AES-GCM) and the clock as explicit functional parameters, since they are
  environment primitives rather than repository code;
* the REST-client error policy (`fetchTransactions`, `addTransaction`,
  `fetchExchangeRate`) as pure functions of the HTTP response;
* the Sankey layout of `src/components/SankeyChart.tsx` (two-column
  revision) and of the four-column revision, together with the
  graph builder `sankeyData` of `src/components/YearlyDashboard.tsx`.

Numeric values are modelled by `ℚ` (exact arithmetic standing for the
idealised real-number reading of the JavaScript `number` computations).
Presentational record fields (labels, colors, x-coordinates, SVG path
strings) that no claim mentions are omitted from the embedded records.
-/

/-! ### Bytes, base64 and UTF-8 (src/services/api.ts helpers) -/

/-- The standard base64 alphabet, as used by the browser `btoa`/`atob`. -/
def base64Alphabet : List Char :=
  "ABCDEFGHIJKLMNOPQRSTUVWXYZabcdefghijklmnopqrstuvwxyz0123456789+/".toList

/-- The base64 digit for a 6-bit value. -/
def b64Char (n : Nat) : Char := base64Alphabet.getD n 'A'

/-- The 6-bit value of a base64 digit (browser `atob` direction). -/
def b64Val (c : Char) : Nat := base64Alphabet.indexOf c

/-- Standard base64 encoding of a byte list: the browser `btoa` applied to
the byte string, producing 4 digits per 3 bytes with `'='` padding. -/
def btoaBytes : List Nat → List Char
  | a :: b :: c :: rest =>
      b64Char (a / 4) :: b64Char (a % 4 * 16 + b / 16) ::
      b64Char (b % 16 * 4 + c / 64) :: b64Char (c % 64) :: btoaBytes rest
  | [a] => [b64Char (a / 4), b64Char (a % 4 * 16), '=', '=']
  | [a, b] => [b64Char (a / 4), b64Char (a % 4 * 16 + b / 16), b64Char (b % 16 * 4), '=']
  | [] => []

/-- Standard base64 decoding of a padded digit string: the browser `atob`,
returning the byte list. -/
def atobChars : List Char → List Nat
  | a :: b :: c :: d :: rest =>
      if c = '=' then [b64Val a * 4 + b64Val b / 16]
      else if d = '=' then
        [b64Val a * 4 + b64Val b / 16, b64Val b % 16 * 16 + b64Val c / 4]
      else (b64Val a * 4 + b64Val b / 16) :: (b64Val b % 16 * 16 + b64Val c / 4) ::
           (b64Val c % 4 * 64 + b64Val d) :: atobChars rest
  | _ => []

/-- `.replace(/\+/g, '-').replace(/\//g, '_')` on a single character. -/
def swapUrl (c : Char) : Char :=
  if c = '+' then '-' else if c = '/' then '_' else c

/-- The reverse replacement, dash to plus and underscore to slash,
performed by `base64URLToBuffer`, on a single character. -/
def swapBack (c : Char) : Char :=
  if c = '-' then '+' else if c = '_' then '/' else c

/-- UTF-8 encoding of one code point (`TextEncoder` on a single character). -/
def utf8Char (c : Char) : List Nat :=
  let n := c.toNat
  if n < 128 then [n]
  else if n < 2048 then [192 + n / 64, 128 + n % 64]
  else if n < 65536 then [224 + n / 4096, 128 + n / 64 % 64, 128 + n % 64]
  else [240 + n / 262144, 128 + n / 4096 % 64, 128 + n / 64 % 64, 128 + n % 64]

/-- `textEncoder.encode`: UTF-8 bytes of a string. -/
def utf8Encode (s : String) : List Nat := (s.toList.map utf8Char).flatten

/-- `base64UrlEncode` of `src/services/api.ts` on a byte array:
`btoa` then `replace(/=/g, '').replace(/\+/g, '-').replace(/\//g, '_')`. -/
def base64UrlEncode (bs : List Nat) : String :=
  String.mk (((btoaBytes bs).filter (fun c => !(c == '='))).map swapUrl)

/-- `base64UrlEncode` applied to a string argument: the string is first
UTF-8 encoded (`textEncoder.encode`), then treated as bytes. -/
def base64UrlEncodeS (s : String) : String := base64UrlEncode (utf8Encode s)

/-- `bufferToBase64URL` of `src/services/api.ts`: `btoa` on the bytes, then
`.replace(/\+/g, '-').replace(/\//g, '_').replace(/=/g, '')`. -/
def bufferToBase64URL (bs : List Nat) : String :=
  String.mk (((btoaBytes bs).map swapUrl).filter (fun c => !(c == '=')))

/-- The `'='` padding appended by `base64URLToBuffer`:
`padLen = (4 - (base64.length % 4)) % 4`. -/
def padEq (l : List Char) : List Char :=
  l ++ List.replicate ((4 - l.length % 4) % 4) '='

/-- `base64URLToBuffer` of `src/services/api.ts`: undo the URL-safe
replacements, re-pad with `'='` to a multiple of four, and `atob`. -/
def base64URLToBuffer (s : String) : List Nat :=
  atobChars (padEq (s.toList.map swapBack))

/-- `arrayBufferToBase64` of the encrypted-JWT revision: plain `btoa`
with no URL-safe replacements and padding kept. -/
def arrayBufferToBase64 (bs : List Nat) : String := String.mk (btoaBytes bs)

/-! ### JWT construction (src/services/api.ts and its encrypted revision)

`crypto.subtle.sign('HMAC', …)` and `crypto.subtle.encrypt({name:'AES-GCM'}, …)`
are browser primitives, so they appear as functional parameters
(`hmacSign key message` and `aesGcmEncrypt key iv plaintext`); likewise
`Date.now()` appears as the parameter `nowMs`. -/

/-- One hex digit, lowercase, as produced by JSON escaping. -/
def hexDigit (n : Nat) : Char := "0123456789abcdef".toList.getD n '0'

/-- `JSON.stringify` escaping of one character inside a string literal. -/
def jsonEscapeChar (c : Char) : List Char :=
  if c = '"' then ['\\', '"']
  else if c = '\\' then ['\\', '\\']
  else if c = '\x08' then ['\\', 'b']
  else if c = '\x09' then ['\\', 't']
  else if c = '\x0a' then ['\\', 'n']
  else if c = '\x0c' then ['\\', 'f']
  else if c = '\x0d' then ['\\', 'r']
  else if c.toNat < 32 then
    ['\\', 'u', '0', '0', hexDigit (c.toNat / 16), hexDigit (c.toNat % 16)]
  else [c]

/-- `JSON.stringify` of a string value: quoted and escaped. -/
def jsonString (s : String) : String :=
  "\"" ++ String.mk (s.toList.map jsonEscapeChar).flatten ++ "\""

/-- `JSON.stringify({ alg: "HS256", typ: "JWT" })`. -/
def headerJson : String := "\x7b\"alg\":\"HS256\",\"typ\":\"JWT\"\x7d"

/-- `JSON.stringify` of the plain-revision payload
`email / apikey / exp`, with `exp = Math.floor(Date.now() / 1000) + 3600`. -/
def payloadJson (email apikey : String) (nowMs : Nat) : String :=
  "\x7b\"email\":" ++ jsonString email ++ ",\"apikey\":" ++ jsonString apikey ++
  ",\"exp\":" ++ toString (nowMs / 1000 + 3600) ++ "\x7d"

/-- `generateJWT` of `src/services/api.ts` (plain-payload revision). -/
def generateJWT (hmacSign : List Nat → List Nat → List Nat) (nowMs : Nat)
    (jwtSecret apiKey email : String) : String :=
  let encodedHeader := base64UrlEncodeS headerJson
  let encodedPayload := base64UrlEncodeS (payloadJson email apiKey nowMs)
  let tokenData := encodedHeader ++ "." ++ encodedPayload
  tokenData ++ "." ++
    base64UrlEncode (hmacSign (utf8Encode jwtSecret) (utf8Encode tokenData))

/-- `stringTo32Bytes` of the encrypted revision: for indices 0 to 31, the
UTF-8 byte of the secret at that index when available, otherwise 0. -/
def stringTo32Bytes (s : String) : List Nat :=
  (List.range 32).map
    (fun i => if i < (utf8Encode s).length then (utf8Encode s).getD i 0 else 0)

/-- `encryptData` of the encrypted revision: AES-GCM over the JSON-encoded
data with the 32-byte key derived from the secret, returning the
base64-encoded ciphertext together with the base64-encoded IV. -/
def encryptData (aesGcmEncrypt : List Nat → List Nat → List Nat → List Nat)
    (iv : List Nat) (dataJson : String) (secret : String) : String × String :=
  (arrayBufferToBase64 (aesGcmEncrypt (stringTo32Bytes secret) iv (utf8Encode dataJson)),
   arrayBufferToBase64 iv)

/-- `JSON.stringify` of the data encrypted by the later `generateJWT`. -/
def dataToEncryptJson (email apikey : String) : String :=
  "\x7b\"email\":" ++ jsonString email ++ ",\"apikey\":" ++ jsonString apikey ++ "\x7d"

/-- `JSON.stringify` of the encrypted-revision payload
`data / iv / exp`, with `exp = Math.floor(Date.now() / 1000) + 3600`. -/
def payloadJsonEnc (encrypted ivB64 : String) (nowMs : Nat) : String :=
  "\x7b\"data\":" ++ jsonString encrypted ++ ",\"iv\":" ++ jsonString ivB64 ++
  ",\"exp\":" ++ toString (nowMs / 1000 + 3600) ++ "\x7d"

/-- `generateJWT` of the encrypted revision (src/unnamed/part_010). -/
def generateJWTEnc (hmacSign : List Nat → List Nat → List Nat)
    (aesGcmEncrypt : List Nat → List Nat → List Nat → List Nat)
    (iv : List Nat) (nowMs : Nat) (jwtSecret apiKey email : String) : String :=
  let ed := encryptData aesGcmEncrypt iv (dataToEncryptJson email apiKey) jwtSecret
  let encodedHeader := base64UrlEncodeS headerJson
  let encodedPayload := base64UrlEncodeS (payloadJsonEnc ed.1 ed.2 nowMs)
  let tokenData := encodedHeader ++ "." ++ encodedPayload
  tokenData ++ "." ++
    base64UrlEncode (hmacSign (utf8Encode jwtSecret) (utf8Encode tokenData))

/-- `getHeaders` of `src/services/api.ts`: resolve the email from the
override, else from the stored user, else the empty string, and return the
`Content-Type` and `Authorization` header values. -/
def getHeaders (hmacSign : List Nat → List Nat → List Nat) (nowMs : Nat)
    (jwtSecret apiKey : String) (emailOverride storedEmail : Option String) :
    String × String :=
  let email := emailOverride.getD (storedEmail.getD "")
  ("application/json",
   "Bearer " ++ generateJWT hmacSign nowMs jwtSecret apiKey email)

/-! ### REST-client error policy (src/services/api.ts API functions)

Each API function performs one `fetch` and inspects `response.ok`; the
embedding takes the `fetch` response as an argument and returns the
function's result together with the number of fetches the call issued. -/

/-- The parts of a `fetch` response the client inspects. -/
structure HttpResponse where
  ok : Bool
  statusText : String
  bodyText : String
  deriving DecidableEq, Repr

/-- `true` exactly on a non-exceptional result. -/
def exceptOk {α : Type} : Except String α → Bool
  | Except.ok _ => true
  | Except.error _ => false

/-- `fetchTransactions`: one GET; throws on a non-ok response, otherwise
returns the parsed body. -/
def fetchTransactions (month : String) (resp : HttpResponse) :
    Except String String × Nat :=
  ((if resp.ok then Except.ok resp.bodyText
    else Except.error ("Error fetching data: " ++ resp.statusText)), 1)

/-- `addTransaction`: one POST; throws on a non-ok response with the body
text when non-empty, else the status text; returns unit on success. -/
def addTransaction (resp : HttpResponse) : Except String Unit × Nat :=
  ((if resp.ok then Except.ok ()
    else Except.error (if resp.bodyText = "" then resp.statusText else resp.bodyText)), 1)

/-- The try-block of `fetchExchangeRate`: throws on a non-ok response or a
missing rate. `ratesAUD` models `data.rates?.AUD` of the parsed body, where
a rate of 0 is falsy like a missing one. -/
def exchangeAttempt (currencyCode : String) (resp : HttpResponse)
    (ratesAUD : Option ℚ) : Except String ℚ :=
  if !resp.ok then Except.error "Failed to fetch exchange rates"
  else
    match ratesAUD with
    | none => Except.error ("Rate for AUD not found in " ++ currencyCode ++ " response")
    | some r =>
        if r = 0 then
          Except.error ("Rate for AUD not found in " ++ currencyCode ++ " response")
        else Except.ok r

/-- `fetchExchangeRate`: returns 1 immediately for AUD (no fetch at all);
otherwise fetches once inside a try/catch whose catch swallows the error
and returns the fallback rate 1. -/
def fetchExchangeRate (currencyCode : String) (resp : HttpResponse)
    (ratesAUD : Option ℚ) : Except String ℚ × Nat :=
  if currencyCode = "AUD" then (Except.ok 1, 0)
  else
    match exchangeAttempt currencyCode resp ratesAUD with
    | Except.ok r => (Except.ok r, 1)
    | Except.error _ => (Except.ok 1, 1)

/-! ### Sankey data model -/

/-- A Sankey link (`SankeyLink`); the presentational `color` is omitted. -/
structure SLink where
  source : String
  target : String
  value : ℚ
  deriving DecidableEq, Repr

/-- A positioned Sankey node as produced by the layout; `x`, `width`,
`label` and `color` are presentational and omitted. -/
structure Pos where
  id : String
  y : ℚ
  height : ℚ
  value : ℚ
  deriving DecidableEq, Repr

/-- A `ChartDataPoint` (category name and aggregated value); the
presentational `color` is omitted. -/
structure CatVal where
  name : String
  value : ℚ
  deriving DecidableEq, Repr

/-- Sum of the values of the links entering `id`. -/
def inflow (ls : List SLink) (id : String) : ℚ :=
  ((ls.filter (fun l => l.target == id)).map SLink.value).sum

/-- Sum of the values of the links leaving `id`. -/
def outflow (ls : List SLink) (id : String) : ℚ :=
  ((ls.filter (fun l => l.source == id)).map SLink.value).sum

/-- Stack a column: starting at `y`, place each (id, value) pair with the
height given by `hof`, advancing by that height plus the fixed gap.
This is the `currentY += nodeHeight + nodeGap` loop of the layouts. -/
def placeColumn (gap : ℚ) (hof : ℚ → ℚ) : ℚ → List (String × ℚ) → List Pos
  | _, [] => []
  | y, p :: rest => ⟨p.1, y, hof p.2, p.2⟩ :: placeColumn gap hof (y + hof p.2 + gap) rest

/-- Insert into a list sorted by descending value (JS `sort((a, b) => b.value - a.value)`). -/
def insertDesc (x : String × ℚ) : List (String × ℚ) → List (String × ℚ)
  | [] => [x]
  | y :: rest => if y.2 < x.2 then x :: y :: rest else y :: insertDesc x rest

/-- Sort by descending value (JS `sort((a, b) => b.value - a.value)`). -/
def sortDesc : List (String × ℚ) → List (String × ℚ)
  | [] => []
  | x :: rest => insertDesc x (sortDesc rest)

/-- `Math.max` over a list of values (the empty case never occurs at use sites). -/
def maxListQ : List ℚ → ℚ
  | [] => 0
  | a :: rest => rest.foldl max a

/-! ### Two-column Sankey layout (src/components/SankeyChart.tsx)

Node ids suffice for the layout geometry, so the node list is a list of
ids.  `padding = 50`, `nodeGap = 8`, `minimum target height = 15`. -/

namespace SankeyTwoCol

/-- `nodeValues`: every link adds its value to both its source's and its
target's total. -/
def nodeValue (links : List SLink) (id : String) : ℚ :=
  outflow links id + inflow links id

/-- The ids that occur in some link (the keys of the `nodeValues` map). -/
def linkIds (links : List SLink) : List String :=
  ((links.map SLink.source) ++ (links.map SLink.target)).dedup

/-- `totalValue = Math.max(...nodeValues.values())`. -/
def totalValue (links : List SLink) : ℚ :=
  maxListQ ((linkIds links).map (nodeValue links))

/-- `availableHeight = constrainedHeight - padding * 2`. -/
def availableHeight (height : ℚ) : ℚ := height - 100

/-- Source column: the nodes that are the target of no link. -/
def sourceNodes (nodes : List String) (links : List SLink) : List String :=
  nodes.filter (fun n => !(links.any (fun l => l.target == n)))

/-- Target column: the nodes that are the source of no link. -/
def targetNodes (nodes : List String) (links : List SLink) : List String :=
  nodes.filter (fun n => !(links.any (fun l => l.source == n)))

/-- Source-column positions: height proportional to value with no minimum,
each node vertically centered on its own. -/
def sourcePositions (nodes : List String) (links : List SLink) (height : ℚ) : List Pos :=
  (sourceNodes nodes links).map (fun n =>
    let value := nodeValue links n
    let nodeHeight := value / totalValue links * availableHeight height * 0.8
    ⟨n, 50 + (availableHeight height - nodeHeight) / 2, nodeHeight, value⟩)

/-- Target nodes paired with values, sorted by descending value. -/
def sortedTargetNodes (nodes : List String) (links : List SLink) : List (String × ℚ) :=
  sortDesc ((targetNodes nodes links).map (fun n => (n, nodeValue links n)))

/-- `Math.max((value / totalValue) * availableHeight * 0.8, 15)`. -/
def clampedHeight (links : List SLink) (height v : ℚ) : ℚ :=
  max (v / totalValue links * availableHeight height * 0.8) 15

/-- Total of the clamped target-node heights. -/
def totalTargetHeight (nodes : List String) (links : List SLink) (height : ℚ) : ℚ :=
  ((sortedTargetNodes nodes links).map (fun p => clampedHeight links height p.2)).sum

/-- `(sortedTargetNodes.length - 1) * nodeGap` (JS arithmetic, so the
subtraction is over the rationals). -/
def totalGapHeight (nodes : List String) (links : List SLink) : ℚ :=
  (((sortedTargetNodes nodes links).length : ℚ) - 1) * 8

/-- Starting `currentY` of the target column. -/
def targetStartY (nodes : List String) (links : List SLink) (height : ℚ) : ℚ :=
  50 + (availableHeight height - totalTargetHeight nodes links height
        - totalGapHeight nodes links) / 2

/-- Target-column positions: clamped heights stacked with gap 8. -/
def targetPositions (nodes : List String) (links : List SLink) (height : ℚ) : List Pos :=
  placeColumn 8 (clampedHeight links height) (targetStartY nodes links height)
    (sortedTargetNodes nodes links)

end SankeyTwoCol

/-! ### Four-column Sankey layout (src/unnamed/part_007, first revision)

Income sources → total income → savings and synthetic total expenses →
expense categories.  `nodeGap = 8`, minimum category height 15. -/

namespace SankeyFourCol

/-- `verticalPadding`, responsive in the width. -/
def verticalPadding (width : ℚ) : ℚ :=
  if width < 500 then 4 else if width < 700 then 8 else 15

/-- Sum of link values into the `income` node. -/
def incomeIncoming (links : List SLink) : ℚ := inflow links "income"

/-- Sum of link values out of the `income` node. -/
def incomeOutgoing (links : List SLink) : ℚ := outflow links "income"

/-- `Math.max(incomeIncoming, incomeOutgoing)`, used for the income node. -/
def incomeValue (links : List SLink) : ℚ :=
  max (incomeIncoming links) (incomeOutgoing links)

/-- `actualIncome`: always the incoming total. -/
def actualIncome (links : List SLink) : ℚ := incomeIncoming links

/-- `nodeValues`: sources accumulate outgoing values; targets other than
`income` accumulate incoming values; the `income` entry is overwritten
with `incomeValue` when that is positive. -/
def nodeValue (links : List SLink) (id : String) : ℚ :=
  if id == "income" then
    (if 0 < incomeValue links then incomeValue links else incomeOutgoing links)
  else outflow links id + inflow links id

/-- All nodes except the `income` node. -/
def categoryNodes (nodes : List String) : List String :=
  nodes.filter (fun n => !(n == "income"))

/-- Column 1: category nodes with a link into `income`. -/
def incomeSourceCategories (nodes : List String) (links : List SLink) : List String :=
  (categoryNodes nodes).filter (fun n =>
    links.any (fun l => l.source == n && l.target == "income"))

/-- Columns 3 and 4: category nodes receiving a link from `income`. -/
def rightNodes (nodes : List String) (links : List SLink) : List String :=
  (categoryNodes nodes).filter (fun n =>
    links.any (fun l => l.source == "income" && l.target == n))

/-- The SAVINGS node, when it receives from `income`. -/
def savingsNodes (nodes : List String) (links : List SLink) : List String :=
  (rightNodes nodes links).filter (fun n => n == "SAVINGS")

/-- Expense categories: right-side nodes other than SAVINGS. -/
def expenseNodes (nodes : List String) (links : List SLink) : List String :=
  (rightNodes nodes links).filter (fun n => !(n == "SAVINGS"))

/-- `availableHeight = constrainedHeight - verticalPadding * 2`. -/
def availableHeight (width height : ℚ) : ℚ := height - verticalPadding width * 2

/-- `totalValue`: the sum of all link values. -/
def totalValue (links : List SLink) : ℚ := (links.map SLink.value).sum

/-- `totalExpensesValue`: sum of the node values of the expense categories. -/
def totalExpensesValue (nodes : List String) (links : List SLink) : ℚ :=
  ((expenseNodes nodes links).map (nodeValue links)).sum

/-- `savingsValue`: sum of the node values of the savings nodes. -/
def savingsValue (nodes : List String) (links : List SLink) : ℚ :=
  ((savingsNodes nodes links).map (nodeValue links)).sum

/-- Height of the income node (no minimum). -/
def incomeHeight (links : List SLink) (width height : ℚ) : ℚ :=
  incomeValue links / totalValue links * availableHeight width height * 0.8

/-- Height of the SAVINGS node in column 3. -/
def savingsHeight (nodes : List String) (links : List SLink) (width height : ℚ) : ℚ :=
  if 0 < savingsValue nodes links then
    savingsValue nodes links / incomeValue links * incomeHeight links width height
  else 0

/-- Height of the synthetic total-expenses node: the share of the income
node's height given by the expense total, when both are positive. -/
def totalExpensesHeight (nodes : List String) (links : List SLink) (width height : ℚ) : ℚ :=
  if 0 < totalExpensesValue nodes links ∧ 0 < incomeValue links then
    totalExpensesValue nodes links / incomeValue links * incomeHeight links width height
  else 0

/-- `col3Gap = nodeGap * 3` when both column-3 nodes are present. -/
def col3Gap (nodes : List String) (links : List SLink) (width height : ℚ) : ℚ :=
  if 0 < savingsHeight nodes links width height ∧
     0 < totalExpensesHeight nodes links width height then 24 else 0

/-- The `currentCol3Y` at which the total-expenses node is placed. -/
def totalExpensesY (nodes : List String) (links : List SLink) (width height : ℚ) : ℚ :=
  verticalPadding width +
    (if 0 < savingsValue nodes links then
      savingsHeight nodes links width height + col3Gap nodes links width height
     else 0)

/-- `Math.max((value / totalValue) * availableHeight * 0.8, 15)`. -/
def clampedHeight (links : List SLink) (width height v : ℚ) : ℚ :=
  max (v / totalValue links * availableHeight width height * 0.8) 15

/-- Column 1: income source categories, sorted by descending value and
stacked from the top padding with gap 8. -/
def col1Positions (nodes : List String) (links : List SLink) (width height : ℚ) : List Pos :=
  placeColumn 8 (clampedHeight links width height) (verticalPadding width)
    (sortDesc ((incomeSourceCategories nodes links).map (fun n => (n, nodeValue links n))))

/-- Column 2: the total-income node, when present in the node list; its
displayed value is `actualIncome`. -/
def col2Position (nodes : List String) (links : List SLink) (width height : ℚ) : List Pos :=
  if nodes.any (fun n => n == "income") then
    [⟨"income", verticalPadding width, incomeHeight links width height, actualIncome links⟩]
  else []

/-- Column 3: the SAVINGS node (when its value is positive) followed by the
synthetic total-expenses node (when the expense total is positive). -/
def col3Positions (nodes : List String) (links : List SLink) (width height : ℚ) : List Pos :=
  (if 0 < savingsValue nodes links then
    [⟨"SAVINGS", verticalPadding width, savingsHeight nodes links width height,
      savingsValue nodes links⟩]
   else []) ++
  (if 0 < totalExpensesValue nodes links then
    [⟨"total-expenses", totalExpensesY nodes links width height,
      totalExpensesHeight nodes links width height, totalExpensesValue nodes links⟩]
   else [])

/-- Column 4: expense categories, sorted by descending value, stacked from
`max(verticalPadding, totalExpensesY)` with gap 8. -/
def col4Positions (nodes : List String) (links : List SLink) (width height : ℚ) : List Pos :=
  placeColumn 8 (clampedHeight links width height)
    (max (verticalPadding width) (totalExpensesY nodes links width height))
    (sortDesc ((expenseNodes nodes links).map (fun n => (n, nodeValue links n))))

/-- All positioned nodes of the four columns. -/
def allPositions (nodes : List String) (links : List SLink) (width height : ℚ) : List Pos :=
  col1Positions nodes links width height ++ col2Position nodes links width height ++
  col3Positions nodes links width height ++ col4Positions nodes links width height

/-- The rebuilt link list of the four-column layout: original links into
`income`, then `income → SAVINGS`, `income → total-expenses`, and
`total-expenses → category` for each expense category of positive value. -/
def modifiedLinks (nodes : List String) (links : List SLink) : List SLink :=
  links.filter (fun l => l.target == "income") ++
  (if 0 < savingsValue nodes links then
    [⟨"income", "SAVINGS", savingsValue nodes links⟩] else []) ++
  (if 0 < totalExpensesValue nodes links then
    [⟨"income", "total-expenses", totalExpensesValue nodes links⟩] else []) ++
  (expenseNodes nodes links).filterMap (fun n =>
    if 0 < nodeValue links n then some ⟨"total-expenses", n, nodeValue links n⟩ else none)

/-- `updatedNodeValues`: recomputed from the modified links, then the
`income` and `total-expenses` entries are overwritten exactly. -/
def updatedNodeValue (nodes : List String) (links : List SLink) (id : String) : ℚ :=
  if id == "income" then incomeValue links
  else if id == "total-expenses" then totalExpensesValue nodes links
  else outflow (modifiedLinks nodes links) id + inflow (modifiedLinks nodes links) id

/-- `allPositions.find(n => n.id === …)`. -/
def findPos (ps : List Pos) (id : String) : Option Pos :=
  ps.find? (fun p => p.id == id)

/-- The per-link ribbon thicknesses of `linkPaths`: at the source end the
link's share of the source node's value times the source node's height,
at the target end the link's share of the target node's value times the
target node's height, with fallback thickness 2 on a non-positive node
value; links with a missing endpoint are dropped.  (The rendering order of
`sortedLinks` only affects y-offsets, not thicknesses, and is omitted.) -/
def linkThicknesses (nodes : List String) (links : List SLink) (width height : ℚ) :
    List (SLink × ℚ × ℚ) :=
  (modifiedLinks nodes links).filterMap (fun l =>
    match findPos (allPositions nodes links width height) l.source,
          findPos (allPositions nodes links width height) l.target with
    | some s, some t =>
        some (l,
          (if 0 < updatedNodeValue nodes links l.source then
            l.value / updatedNodeValue nodes links l.source * s.height
           else 2),
          (if 0 < updatedNodeValue nodes links l.target then
            l.value / updatedNodeValue nodes links l.target * t.height
           else 2))
    | _, _ => none)

end SankeyFourCol

/-! ### The Sankey input graph built by YearlyDashboard (`sankeyData`) -/

/-- Sum of the values of a category aggregate list. -/
def sumVals (l : List CatVal) : ℚ := (l.map CatVal.value).sum

/-- The links of `sankeyData` in `src/components/YearlyDashboard.tsx`:
one link per income category into `income`; `income → SAVINGS` when the
summary's savings amount is positive; one link from `income` per expense
category.  `savingsAmount` is taken wholesale from the backend yearly
summary (`yearly_total_savings` or the month's `total_savings`). -/
def sankeyDataLinks (incomes expenses : List CatVal) (savingsAmount : ℚ) : List SLink :=
  incomes.map (fun cat => ⟨"income-" ++ cat.name, "income", cat.value⟩) ++
  (if 0 < savingsAmount then [⟨"income", "SAVINGS", savingsAmount⟩] else []) ++
  expenses.map (fun cat => ⟨"income", "expense-" ++ cat.name, cat.value⟩)

/-- The nodes of `sankeyData`, in construction order. -/
def sankeyDataNodes (incomes expenses : List CatVal) (savingsAmount : ℚ) : List String :=
  incomes.map (fun cat => "income-" ++ cat.name) ++ ["income"] ++
  (if 0 < savingsAmount then ["SAVINGS"] else []) ++
  expenses.map (fun cat => "expense-" ++ cat.name)

/-! ### Lemmas about base64 digits -/

theorem base64Alphabet_length : base64Alphabet.length = 64 := by decide

theorem b64Char_props (n : Nat) :
    b64Char n ≠ '.' ∧ b64Char n ≠ '=' ∧ b64Char n ≠ '-' ∧ b64Char n ≠ '_' := by
  rcases Nat.lt_or_ge n 64 with h | h
  · have hall : ∀ m, m < 64 →
        (b64Char m ≠ '.' ∧ b64Char m ≠ '=' ∧ b64Char m ≠ '-' ∧ b64Char m ≠ '_') := by decide
    exact hall n h
  · have hd : b64Char n = 'A' := by
      unfold b64Char
      exact List.getD_eq_default _ _ (base64Alphabet_length ▸ h)
    rw [hd]; decide

theorem b64Val_b64Char : ∀ n, n < 64 → b64Val (b64Char n) = n := by decide

theorem mem_btoaBytes : ∀ (bs : List Nat) (c : Char), c ∈ btoaBytes bs →
    (∃ n, c = b64Char n) ∨ c = '='
  | a :: b :: c0 :: rest, c, h => by
      simp only [btoaBytes, List.mem_cons] at h
      rcases h with h | h | h | h | h
      · exact Or.inl ⟨_, h⟩
      · exact Or.inl ⟨_, h⟩
      · exact Or.inl ⟨_, h⟩
      · exact Or.inl ⟨_, h⟩
      · exact mem_btoaBytes rest c h
  | [a], c, h => by
      simp only [btoaBytes, List.mem_cons, List.not_mem_nil, or_false] at h
      rcases h with h | h | h | h
      · exact Or.inl ⟨_, h⟩
      · exact Or.inl ⟨_, h⟩
      · exact Or.inr h
      · exact Or.inr h
  | [a, b], c, h => by
      simp only [btoaBytes, List.mem_cons, List.not_mem_nil, or_false] at h
      rcases h with h | h | h | h
      · exact Or.inl ⟨_, h⟩
      · exact Or.inl ⟨_, h⟩
      · exact Or.inl ⟨_, h⟩
      · exact Or.inr h
  | [], c, h => by simp [btoaBytes] at h

theorem swapUrl_b64Char_props (n : Nat) :
    swapUrl (b64Char n) ≠ '.' ∧ swapUrl (b64Char n) ≠ '+' ∧
    swapUrl (b64Char n) ≠ '/' ∧ swapUrl (b64Char n) ≠ '=' := by
  have h := b64Char_props n
  by_cases h1 : b64Char n = '+'
  · rw [h1]; decide
  by_cases h2 : b64Char n = '/'
  · rw [h2]; decide
  · unfold swapUrl
    rw [if_neg h1, if_neg h2]
    exact ⟨h.1, h1, h2, h.2.1⟩

theorem swapBack_swapUrl_b64Char (n : Nat) :
    swapBack (swapUrl (b64Char n)) = b64Char n := by
  have h := b64Char_props n
  by_cases h1 : b64Char n = '+'
  · rw [h1]; decide
  by_cases h2 : b64Char n = '/'
  · rw [h2]; decide
  · unfold swapUrl swapBack
    rw [if_neg h1, if_neg h2, if_neg h.2.2.1, if_neg h.2.2.2]

theorem mem_base64UrlEncode (bs : List Nat) (c : Char)
    (h : c ∈ (base64UrlEncode bs).toList) :
    c ≠ '.' ∧ c ≠ '+' ∧ c ≠ '/' ∧ c ≠ '=' := by
  have h' : c ∈ ((btoaBytes bs).filter (fun c => !(c == '='))).map swapUrl := h
  rcases List.mem_map.mp h' with ⟨c0, hc0, rfl⟩
  rcases List.mem_filter.mp hc0 with ⟨hmem, hne⟩
  have hne' : c0 ≠ '=' := by simpa using hne
  rcases mem_btoaBytes bs c0 hmem with ⟨n, rfl⟩ | rfl
  · exact swapUrl_b64Char_props n
  · exact absurd rfl hne'

theorem mem_bufferToBase64URL (bs : List Nat) (c : Char)
    (h : c ∈ (bufferToBase64URL bs).toList) :
    c ≠ '.' ∧ c ≠ '+' ∧ c ≠ '/' ∧ c ≠ '=' := by
  have h' : c ∈ ((btoaBytes bs).map swapUrl).filter (fun c => !(c == '=')) := h
  rcases List.mem_filter.mp h' with ⟨hmem, hne⟩
  rcases List.mem_map.mp hmem with ⟨c0, hc0, rfl⟩
  rcases mem_btoaBytes bs c0 hc0 with ⟨n, rfl⟩ | rfl
  · exact swapUrl_b64Char_props n
  · have he : swapUrl '=' = '=' := by decide
    rw [he] at hne
    simp at hne

theorem stringMk_ne_empty {l : List Char} (h : l ≠ []) : String.mk l ≠ "" := by
  intro hc
  exact h (congrArg String.data hc)

theorem utf8Char_ne_nil (c : Char) : utf8Char c ≠ [] := by
  simp only [utf8Char]
  split_ifs <;> simp

theorem utf8Encode_ne_nil (s : String) (h : s.toList ≠ []) : utf8Encode s ≠ [] := by
  unfold utf8Encode
  cases hs : s.toList with
  | nil => exact absurd hs h
  | cons c rest =>
      simp [utf8Char_ne_nil]

theorem base64UrlEncode_ne_empty (bs : List Nat) (h : bs ≠ []) : base64UrlEncode bs ≠ "" := by
  apply stringMk_ne_empty
  have hfst : ∃ x t, btoaBytes bs = x :: t ∧ (x == '=') = false := by
    match bs with
    | [] => exact absurd rfl h
    | [a] => exact ⟨_, _, rfl, beq_eq_false_iff_ne.mpr (b64Char_props (a / 4)).2.1⟩
    | [a, b] => exact ⟨_, _, rfl, beq_eq_false_iff_ne.mpr (b64Char_props (a / 4)).2.1⟩
    | a :: b :: c :: rest => exact ⟨_, _, rfl, beq_eq_false_iff_ne.mpr (b64Char_props (a / 4)).2.1⟩
  rcases hfst with ⟨x, t, heq, hx⟩
  rw [heq]
  simp [List.filter_cons, hx]

theorem padEq_cons4 (a b c d : Char) (t : List Char) :
    padEq (a :: b :: c :: d :: t) = a :: b :: c :: d :: padEq t := by
  have hk : (4 - (t.length + 4) % 4) % 4 = (4 - t.length % 4) % 4 := by omega
  simp only [padEq, List.length_cons, List.cons_append]
  have harr : t.length + 1 + 1 + 1 + 1 = t.length + 4 := by omega
  rw [harr, hk]

theorem atob_of_btoa : ∀ (bs : List Nat), (∀ x ∈ bs, x < 256) →
    atobChars (padEq ((((btoaBytes bs).map swapUrl).filter (fun c => !(c == '='))).map swapBack)) = bs
  | [], _ => rfl
  | [a], h => by
      have ha : a < 256 := h a (by simp)
      have p1 := swapUrl_b64Char_props (a / 4)
      have p2 := swapUrl_b64Char_props (a % 4 * 16)
      have f1 : (swapUrl (b64Char (a / 4)) == '=') = false := beq_eq_false_iff_ne.mpr p1.2.2.2
      have f2 : (swapUrl (b64Char (a % 4 * 16)) == '=') = false := beq_eq_false_iff_ne.mpr p2.2.2.2
      have e1 := swapBack_swapUrl_b64Char (a / 4)
      have e2 := swapBack_swapUrl_b64Char (a % 4 * 16)
      have hsw : swapUrl '=' = '=' := by decide
      simp only [btoaBytes, List.map_cons, List.map_nil, hsw, List.filter_cons, f1, f2,
        Bool.not_false, Bool.not_true, beq_self_eq_true, List.filter_nil, if_true, if_false,
        cond_true, cond_false, e1, e2]
      show atobChars (padEq [b64Char (a / 4), b64Char (a % 4 * 16)]) = [a]
      have hpad : padEq [b64Char (a / 4), b64Char (a % 4 * 16)] =
          [b64Char (a / 4), b64Char (a % 4 * 16), '=', '='] := by
        simp [padEq, List.replicate]
      rw [hpad]
      simp only [atobChars, if_pos rfl]
      rw [b64Val_b64Char _ (by omega), b64Val_b64Char _ (by omega)]
      have : a / 4 * 4 + a % 4 * 16 / 16 = a := by omega
      rw [this]
      simp
  | [a, b], h => by
      have ha : a < 256 := h a (by simp)
      have hb : b < 256 := h b (by simp)
      have p1 := swapUrl_b64Char_props (a / 4)
      have p2 := swapUrl_b64Char_props (a % 4 * 16 + b / 16)
      have p3 := swapUrl_b64Char_props (b % 16 * 4)
      have f1 : (swapUrl (b64Char (a / 4)) == '=') = false := beq_eq_false_iff_ne.mpr p1.2.2.2
      have f2 : (swapUrl (b64Char (a % 4 * 16 + b / 16)) == '=') = false :=
        beq_eq_false_iff_ne.mpr p2.2.2.2
      have f3 : (swapUrl (b64Char (b % 16 * 4)) == '=') = false := beq_eq_false_iff_ne.mpr p3.2.2.2
      have e1 := swapBack_swapUrl_b64Char (a / 4)
      have e2 := swapBack_swapUrl_b64Char (a % 4 * 16 + b / 16)
      have e3 := swapBack_swapUrl_b64Char (b % 16 * 4)
      have hsw : swapUrl '=' = '=' := by decide
      simp only [btoaBytes, List.map_cons, List.map_nil, hsw, List.filter_cons, f1, f2, f3,
        Bool.not_false, Bool.not_true, beq_self_eq_true, List.filter_nil, if_true, if_false,
        cond_true, cond_false, e1, e2, e3]
      show atobChars (padEq [b64Char (a / 4), b64Char (a % 4 * 16 + b / 16),
        b64Char (b % 16 * 4)]) = [a, b]
      have hpad : padEq [b64Char (a / 4), b64Char (a % 4 * 16 + b / 16), b64Char (b % 16 * 4)] =
          [b64Char (a / 4), b64Char (a % 4 * 16 + b / 16), b64Char (b % 16 * 4), '='] := by
        simp [padEq, List.replicate]
      rw [hpad]
      simp only [atobChars, if_neg (b64Char_props (b % 16 * 4)).2.1, if_pos rfl]
      rw [b64Val_b64Char _ (by omega), b64Val_b64Char _ (by omega), b64Val_b64Char _ (by omega)]
      have h1 : a / 4 * 4 + (a % 4 * 16 + b / 16) / 16 = a := by omega
      have h2 : (a % 4 * 16 + b / 16) % 16 * 16 + b % 16 * 4 / 4 = b := by omega
      rw [h1, h2]
      simp
  | a :: b :: c :: rest, h => by
      have ha : a < 256 := h a (by simp)
      have hb : b < 256 := h b (by simp)
      have hc : c < 256 := h c (by simp)
      have IH := atob_of_btoa rest (fun x hx => h x (by simp [hx]))
      have p1 := swapUrl_b64Char_props (a / 4)
      have p2 := swapUrl_b64Char_props (a % 4 * 16 + b / 16)
      have p3 := swapUrl_b64Char_props (b % 16 * 4 + c / 64)
      have p4 := swapUrl_b64Char_props (c % 64)
      have f1 : (swapUrl (b64Char (a / 4)) == '=') = false := beq_eq_false_iff_ne.mpr p1.2.2.2
      have f2 : (swapUrl (b64Char (a % 4 * 16 + b / 16)) == '=') = false :=
        beq_eq_false_iff_ne.mpr p2.2.2.2
      have f3 : (swapUrl (b64Char (b % 16 * 4 + c / 64)) == '=') = false :=
        beq_eq_false_iff_ne.mpr p3.2.2.2
      have f4 : (swapUrl (b64Char (c % 64)) == '=') = false := beq_eq_false_iff_ne.mpr p4.2.2.2
      have e1 := swapBack_swapUrl_b64Char (a / 4)
      have e2 := swapBack_swapUrl_b64Char (a % 4 * 16 + b / 16)
      have e3 := swapBack_swapUrl_b64Char (b % 16 * 4 + c / 64)
      have e4 := swapBack_swapUrl_b64Char (c % 64)
      simp only [btoaBytes, List.map_cons, List.filter_cons, f1, f2, f3, f4,
        Bool.not_false, Bool.not_true, if_true, if_false, cond_true, cond_false,
        e1, e2, e3, e4]
      rw [padEq_cons4]
      simp only [atobChars, if_neg (b64Char_props (b % 16 * 4 + c / 64)).2.1,
        if_neg (b64Char_props (c % 64)).2.1]
      rw [b64Val_b64Char _ (by omega), b64Val_b64Char _ (by omega),
        b64Val_b64Char _ (by omega), b64Val_b64Char _ (by omega)]
      have h1 : a / 4 * 4 + (a % 4 * 16 + b / 16) / 16 = a := by omega
      have h2 : (a % 4 * 16 + b / 16) % 16 * 16 + (b % 16 * 4 + c / 64) / 4 = b := by omega
      have h3 : (b % 16 * 4 + c / 64) % 4 * 64 + c % 64 = c := by omega
      rw [h1, h2, h3, IH]

theorem string_toList_append (a b : String) : (a ++ b).toList = a.toList ++ b.toList := rfl

theorem append_toList_ne_nil (a b : String) (h : a.toList ≠ []) : (a ++ b).toList ≠ [] := by
  rw [string_toList_append]
  intro hc
  rcases List.append_eq_nil.mp hc with ⟨h1, _⟩
  exact h h1

/-- Claim C8: for every byte buffer, decoding the URL-safe base64 encoding
returns exactly the original bytes, and the encoded form never contains
`'+'`, `'/'` or `'='`. -/
theorem c8_base64url_roundtrip (bs : List Nat) (h : ∀ x ∈ bs, x < 256) :
    base64URLToBuffer (bufferToBase64URL bs) = bs ∧
    ∀ c ∈ (bufferToBase64URL bs).toList, c ≠ '+' ∧ c ≠ '/' ∧ c ≠ '=' :=
  ⟨atob_of_btoa bs h, fun c hc =>
    ⟨(mem_bufferToBase64URL bs c hc).2.1, (mem_bufferToBase64URL bs c hc).2.2.1,
     (mem_bufferToBase64URL bs c hc).2.2.2⟩⟩

theorem c8_base64url_roundtrip_witness :
    (∀ x ∈ [0, 255, 16, 3], x < 256) ∧
    (base64URLToBuffer (bufferToBase64URL [0, 255, 16, 3]) = [0, 255, 16, 3] ∧
     ∀ c ∈ (bufferToBase64URL [0, 255, 16, 3]).toList, c ≠ '+' ∧ c ≠ '/' ∧ c ≠ '=') :=
  ⟨by decide, c8_base64url_roundtrip [0, 255, 16, 3] (by decide)⟩

/-- Claim C2: for every email, `generateJWT` returns three non-empty
dot-free segments joined by dots: the base64url-encoded JSON header, the
base64url-encoded JSON payload (email and API key with expiry in the plain
revision; encrypted blob, IV and expiry in the later revision), and the
base64url-encoded HMAC-SHA-256, keyed with the JWT secret, of the first
two segments joined by a dot; `getHeaders` sends this token as the
`Authorization: Bearer` header value. -/
theorem c2_jwt_three_segments (hmacSign : List Nat → List Nat → List Nat)
    (aesGcmEncrypt : List Nat → List Nat → List Nat → List Nat) (iv : List Nat)
    (nowMs : Nat) (jwtSecret apiKey email : String)
    (hs : ∀ k m, hmacSign k m ≠ []) :
    (∃ s1 s2 s3 : String,
      generateJWT hmacSign nowMs jwtSecret apiKey email = s1 ++ "." ++ s2 ++ "." ++ s3 ∧
      s1 = base64UrlEncodeS headerJson ∧
      s2 = base64UrlEncodeS (payloadJson email apiKey nowMs) ∧
      s3 = base64UrlEncode (hmacSign (utf8Encode jwtSecret) (utf8Encode (s1 ++ "." ++ s2))) ∧
      s1 ≠ "" ∧ s2 ≠ "" ∧ s3 ≠ "" ∧
      (∀ c ∈ s1.toList, c ≠ '.') ∧ (∀ c ∈ s2.toList, c ≠ '.') ∧
      (∀ c ∈ s3.toList, c ≠ '.')) ∧
    (∃ s1 s2 s3 : String,
      generateJWTEnc hmacSign aesGcmEncrypt iv nowMs jwtSecret apiKey email =
        s1 ++ "." ++ s2 ++ "." ++ s3 ∧
      s1 = base64UrlEncodeS headerJson ∧
      s2 = base64UrlEncodeS (payloadJsonEnc
            (encryptData aesGcmEncrypt iv (dataToEncryptJson email apiKey) jwtSecret).1
            (encryptData aesGcmEncrypt iv (dataToEncryptJson email apiKey) jwtSecret).2 nowMs) ∧
      s3 = base64UrlEncode (hmacSign (utf8Encode jwtSecret) (utf8Encode (s1 ++ "." ++ s2))) ∧
      s1 ≠ "" ∧ s2 ≠ "" ∧ s3 ≠ "" ∧
      (∀ c ∈ s1.toList, c ≠ '.') ∧ (∀ c ∈ s2.toList, c ≠ '.') ∧
      (∀ c ∈ s3.toList, c ≠ '.')) ∧
    (∀ emailOverride storedEmail : Option String,
      (getHeaders hmacSign nowMs jwtSecret apiKey emailOverride storedEmail).2 =
        "Bearer " ++ generateJWT hmacSign nowMs jwtSecret apiKey
          (emailOverride.getD (storedEmail.getD ""))) := by
  refine ⟨⟨_, _, _, rfl, rfl, rfl, rfl, ?_, ?_, ?_, ?_, ?_, ?_⟩,
          ⟨_, _, _, rfl, rfl, rfl, rfl, ?_, ?_, ?_, ?_, ?_, ?_⟩,
          fun _ _ => rfl⟩
  · exact base64UrlEncode_ne_empty _ (utf8Encode_ne_nil _ (by decide))
  · refine base64UrlEncode_ne_empty _ (utf8Encode_ne_nil _ ?_)
    exact append_toList_ne_nil _ _ (append_toList_ne_nil _ _ (append_toList_ne_nil _ _
      (append_toList_ne_nil _ _ (append_toList_ne_nil _ _ (append_toList_ne_nil _ _
        (by decide))))))
  · exact base64UrlEncode_ne_empty _ (hs _ _)
  · exact fun c hc => (mem_base64UrlEncode _ c hc).1
  · exact fun c hc => (mem_base64UrlEncode _ c hc).1
  · exact fun c hc => (mem_base64UrlEncode _ c hc).1
  · exact base64UrlEncode_ne_empty _ (utf8Encode_ne_nil _ (by decide))
  · refine base64UrlEncode_ne_empty _ (utf8Encode_ne_nil _ ?_)
    exact append_toList_ne_nil _ _ (append_toList_ne_nil _ _ (append_toList_ne_nil _ _
      (append_toList_ne_nil _ _ (append_toList_ne_nil _ _ (append_toList_ne_nil _ _
        (by decide))))))
  · exact base64UrlEncode_ne_empty _ (hs _ _)
  · exact fun c hc => (mem_base64UrlEncode _ c hc).1
  · exact fun c hc => (mem_base64UrlEncode _ c hc).1
  · exact fun c hc => (mem_base64UrlEncode _ c hc).1

theorem c2_jwt_three_segments_witness :
    (∃ s1 s2 s3 : String,
      generateJWT (fun _ _ => [0]) 0 "my-secret-key" "K" "a@b.c" = s1 ++ "." ++ s2 ++ "." ++ s3 ∧
      s1 = base64UrlEncodeS headerJson ∧
      s2 = base64UrlEncodeS (payloadJson "a@b.c" "K" 0) ∧
      s3 = base64UrlEncode ((fun (_ _ : List Nat) => [0]) (utf8Encode "my-secret-key")
            (utf8Encode (s1 ++ "." ++ s2))) ∧
      s1 ≠ "" ∧ s2 ≠ "" ∧ s3 ≠ "" ∧
      (∀ c ∈ s1.toList, c ≠ '.') ∧ (∀ c ∈ s2.toList, c ≠ '.') ∧
      (∀ c ∈ s3.toList, c ≠ '.')) ∧
    (∃ s1 s2 s3 : String,
      generateJWTEnc (fun _ _ => [0]) (fun _ _ _ => []) [] 0 "my-secret-key" "K" "a@b.c" =
        s1 ++ "." ++ s2 ++ "." ++ s3 ∧
      s1 = base64UrlEncodeS headerJson ∧
      s2 = base64UrlEncodeS (payloadJsonEnc
            (encryptData (fun _ _ _ => []) [] (dataToEncryptJson "a@b.c" "K") "my-secret-key").1
            (encryptData (fun _ _ _ => []) [] (dataToEncryptJson "a@b.c" "K") "my-secret-key").2 0) ∧
      s3 = base64UrlEncode ((fun (_ _ : List Nat) => [0]) (utf8Encode "my-secret-key")
            (utf8Encode (s1 ++ "." ++ s2))) ∧
      s1 ≠ "" ∧ s2 ≠ "" ∧ s3 ≠ "" ∧
      (∀ c ∈ s1.toList, c ≠ '.') ∧ (∀ c ∈ s2.toList, c ≠ '.') ∧
      (∀ c ∈ s3.toList, c ≠ '.')) ∧
    (∀ emailOverride storedEmail : Option String,
      (getHeaders (fun _ _ => [0]) 0 "my-secret-key" "K" emailOverride storedEmail).2 =
        "Bearer " ++ generateJWT (fun _ _ => [0]) 0 "my-secret-key" "K"
          (emailOverride.getD (storedEmail.getD ""))) :=
  c2_jwt_three_segments (fun _ _ => [0]) (fun _ _ _ => []) [] 0 "my-secret-key" "K" "a@b.c"
    (fun _ _ => by simp)

/-- Claim C9: `stringTo32Bytes` always returns exactly 32 bytes, the
truncated or zero-padded prefix of the UTF-8 encoding of its input, so the
AES-256-GCM key of `encryptData` depends only on the first 32 UTF-8 bytes
of the secret. -/
theorem c9_stringTo32Bytes_spec (s : String) :
    (stringTo32Bytes s).length = 32 ∧
    (∀ i, i < 32 → (stringTo32Bytes s).getD i 0 =
      if i < (utf8Encode s).length then (utf8Encode s).getD i 0 else 0) ∧
    (∀ s2 : String, (utf8Encode s).take 32 = (utf8Encode s2).take 32 →
      stringTo32Bytes s = stringTo32Bytes s2 ∧
      ∀ (aesGcmEncrypt : List Nat → List Nat → List Nat → List Nat)
        (iv : List Nat) (dataJson : String),
        encryptData aesGcmEncrypt iv dataJson s = encryptData aesGcmEncrypt iv dataJson s2) := by
  have hkey : ∀ t : String, stringTo32Bytes t =
      (List.range 32).map (fun i => ((utf8Encode t).take 32).getD i 0) := by
    intro t
    unfold stringTo32Bytes
    apply List.map_congr_left
    intro i hi
    have hi32 : i < 32 := List.mem_range.mp hi
    by_cases hL : i < (utf8Encode t).length
    · rw [if_pos hL]
      rw [List.getD_eq_getElem?_getD, List.getD_eq_getElem?_getD,
        List.getElem?_take, if_pos hi32]
    · rw [if_neg hL]
      rw [List.getD_eq_getElem?_getD, List.getElem?_take, if_pos hi32,
        List.getElem?_eq_none (by omega)]
      rfl
  refine ⟨by simp [stringTo32Bytes], ?_, ?_⟩
  · intro i hi
    unfold stringTo32Bytes
    rw [List.getD_eq_getElem?_getD, List.getElem?_map, List.getElem?_range hi]
    rfl
  · intro s2 htake
    have hsb : stringTo32Bytes s = stringTo32Bytes s2 := by
      rw [hkey s, hkey s2, htake]
    exact ⟨hsb, fun aesGcmEncrypt iv dataJson => by unfold encryptData; rw [hsb]⟩

theorem c9_stringTo32Bytes_spec_witness :
    (stringTo32Bytes "aaaaaaaaaaaaaaaaaaaaaaaaaaaaaaaaa").length = 32 ∧
    (stringTo32Bytes "aaaaaaaaaaaaaaaaaaaaaaaaaaaaaaaaa").getD 0 0 =
      (if 0 < (utf8Encode "aaaaaaaaaaaaaaaaaaaaaaaaaaaaaaaaa").length then
        (utf8Encode "aaaaaaaaaaaaaaaaaaaaaaaaaaaaaaaaa").getD 0 0 else 0) ∧
    stringTo32Bytes "aaaaaaaaaaaaaaaaaaaaaaaaaaaaaaaaa" =
      stringTo32Bytes "aaaaaaaaaaaaaaaaaaaaaaaaaaaaaaaab" :=
  ⟨(c9_stringTo32Bytes_spec "aaaaaaaaaaaaaaaaaaaaaaaaaaaaaaaaa").1,
   (c9_stringTo32Bytes_spec "aaaaaaaaaaaaaaaaaaaaaaaaaaaaaaaaa").2.1 0 (by decide),
   ((c9_stringTo32Bytes_spec "aaaaaaaaaaaaaaaaaaaaaaaaaaaaaaaaa").2.2
     "aaaaaaaaaaaaaaaaaaaaaaaaaaaaaaaab" (by decide)).1⟩

/-- Claim C10: every token built by either revision of `generateJWT`
carries an `exp` claim equal to the issuance time in whole seconds
(`Math.floor(Date.now() / 1000)`) plus exactly 3600, so every constructed
bearer token self-expires one hour after construction. -/
theorem c10_token_expiry (hmacSign : List Nat → List Nat → List Nat)
    (aesGcmEncrypt : List Nat → List Nat → List Nat → List Nat) (iv : List Nat)
    (nowMs : Nat) (jwtSecret apiKey email : String) :
    (∃ pre : String, payloadJson email apiKey nowMs =
       pre ++ ",\"exp\":" ++ toString (nowMs / 1000 + 3600) ++ "\x7d") ∧
    (∀ encrypted ivB64 : String, ∃ pre : String, payloadJsonEnc encrypted ivB64 nowMs =
       pre ++ ",\"exp\":" ++ toString (nowMs / 1000 + 3600) ++ "\x7d") ∧
    generateJWT hmacSign nowMs jwtSecret apiKey email =
      base64UrlEncodeS headerJson ++ "." ++
      base64UrlEncodeS (payloadJson email apiKey nowMs) ++ "." ++
      base64UrlEncode (hmacSign (utf8Encode jwtSecret)
        (utf8Encode (base64UrlEncodeS headerJson ++ "." ++
          base64UrlEncodeS (payloadJson email apiKey nowMs)))) ∧
    generateJWTEnc hmacSign aesGcmEncrypt iv nowMs jwtSecret apiKey email =
      base64UrlEncodeS headerJson ++ "." ++
      base64UrlEncodeS (payloadJsonEnc
        (encryptData aesGcmEncrypt iv (dataToEncryptJson email apiKey) jwtSecret).1
        (encryptData aesGcmEncrypt iv (dataToEncryptJson email apiKey) jwtSecret).2 nowMs) ++
      "." ++
      base64UrlEncode (hmacSign (utf8Encode jwtSecret)
        (utf8Encode (base64UrlEncodeS headerJson ++ "." ++
          base64UrlEncodeS (payloadJsonEnc
            (encryptData aesGcmEncrypt iv (dataToEncryptJson email apiKey) jwtSecret).1
            (encryptData aesGcmEncrypt iv (dataToEncryptJson email apiKey) jwtSecret).2
            nowMs)))) :=
  ⟨⟨_, rfl⟩, fun _ _ => ⟨_, rfl⟩, rfl, rfl⟩

theorem c7_api_errors_counterexample :
    fetchExchangeRate "USD" ⟨false, "Bad Gateway", ""⟩ none = (Except.ok 1, 1) ∧
    exceptOk (fetchExchangeRate "USD" ⟨false, "Bad Gateway", ""⟩ none).1 = true ∧
    (fetchExchangeRate "AUD" ⟨true, "OK", ""⟩ (some 2)).2 = 0 :=
  ⟨rfl, rfl, rfl⟩

/-- Claim C7 (amended): the plain API functions (`fetchTransactions` is the
GET pattern, `addTransaction` the mutation pattern) issue exactly one fetch
and throw exactly when the response is not ok, returning the body (or unit)
on success; `fetchExchangeRate` is the exception: it issues one fetch only
for non-AUD currencies, never throws, and substitutes the fallback rate 1
for any failure. -/
theorem c7_api_error_policy :
    (∀ (month : String) (resp : HttpResponse),
      (fetchTransactions month resp).2 = 1 ∧
      exceptOk (fetchTransactions month resp).1 = resp.ok ∧
      (resp.ok = true → (fetchTransactions month resp).1 = Except.ok resp.bodyText)) ∧
    (∀ resp : HttpResponse,
      (addTransaction resp).2 = 1 ∧
      exceptOk (addTransaction resp).1 = resp.ok ∧
      (resp.ok = true → (addTransaction resp).1 = Except.ok ())) ∧
    (∀ (code : String) (resp : HttpResponse) (ratesAUD : Option ℚ),
      (code ≠ "AUD" → (fetchExchangeRate code resp ratesAUD).2 = 1) ∧
      exceptOk (fetchExchangeRate code resp ratesAUD).1 = true) := by
  refine ⟨fun month resp => ?_, fun resp => ?_, fun code resp ratesAUD => ?_⟩
  · cases hok : resp.ok <;> simp [fetchTransactions, exceptOk, hok]
  · cases hok : resp.ok <;> simp [addTransaction, exceptOk, hok]
  · by_cases hc : code = "AUD"
    · subst hc
      simp [fetchExchangeRate, exceptOk]
    · cases hA : exchangeAttempt code resp ratesAUD <;>
        simp [fetchExchangeRate, hc, hA, exceptOk]

theorem c7_api_error_policy_witness :
    ((fetchTransactions "2024-01" ⟨true, "OK", "body"⟩).2 = 1 ∧
      exceptOk (fetchTransactions "2024-01" ⟨true, "OK", "body"⟩).1 = true ∧
      (true = true → (fetchTransactions "2024-01" ⟨true, "OK", "body"⟩).1 =
        Except.ok "body")) ∧
    ((fetchExchangeRate "USD" ⟨true, "OK", ""⟩ (some 2)).2 = 1) := by
  constructor
  · have h := c7_api_error_policy.1 "2024-01" ⟨true, "OK", "body"⟩
    exact h
  · exact (c7_api_error_policy.2.2 "USD" ⟨true, "OK", ""⟩ (some 2)).1 (by decide)

theorem placeColumn_height (gap : ℚ) (hof : ℚ → ℚ) :
    ∀ (y : ℚ) (l : List (String × ℚ)) (p : Pos),
      p ∈ placeColumn gap hof y l → p.height = hof p.value := by
  intro y l
  induction l generalizing y with
  | nil => intro p hp; simp [placeColumn] at hp
  | cons x rest ih =>
      intro p hp
      simp only [placeColumn, List.mem_cons] at hp
      rcases hp with rfl | hp
      · rfl
      · exact ih _ p hp

theorem placeColumn_chain (gap : ℚ) (hof : ℚ → ℚ) :
    ∀ (y : ℚ) (l : List (String × ℚ)),
      List.Chain' (fun p q => q.y = p.y + p.height + gap) (placeColumn gap hof y l) := by
  intro y l
  induction l generalizing y with
  | nil => simp [placeColumn]
  | cons x rest ih =>
      cases rest with
      | nil => simp [placeColumn]
      | cons x2 rest2 =>
          have h2 := ih (y + hof x.2 + gap)
          simp only [placeColumn] at h2 ⊢
          exact List.chain'_cons.mpr ⟨rfl, h2⟩

namespace SankeyTwoCol

theorem sourcePositions_height (nodes : List String) (links : List SLink) (height : ℚ) :
    ∀ p ∈ sourcePositions nodes links height,
      p.height = p.value / totalValue links * availableHeight height * 0.8 := by
  intro p hp
  simp only [sourcePositions, List.mem_map] at hp
  rcases hp with ⟨n, _, rfl⟩
  rfl

theorem targetPositions_height (nodes : List String) (links : List SLink) (height : ℚ) :
    ∀ p ∈ targetPositions nodes links height,
      p.height = clampedHeight links height p.value :=
  fun p hp => placeColumn_height 8 (clampedHeight links height) _ _ p hp

end SankeyTwoCol

/-- Claim C3: in the two-column Sankey layout, any two same-column nodes
whose heights are not clamped by the 15-pixel floor have heights in the
exact proportion of their flow values (height = value/totalValue ×
availableHeight × 0.8, which holds unconditionally in the source column),
and consecutive stacked nodes are separated by exactly the 8-pixel gap. -/
theorem c3_proportional_heights (nodes : List String) (links : List SLink) (height : ℚ) :
    (∀ p ∈ SankeyTwoCol.targetPositions nodes links height,
     ∀ q ∈ SankeyTwoCol.targetPositions nodes links height,
      15 ≤ p.value / SankeyTwoCol.totalValue links * SankeyTwoCol.availableHeight height * 0.8 →
      15 ≤ q.value / SankeyTwoCol.totalValue links * SankeyTwoCol.availableHeight height * 0.8 →
      p.height * q.value = q.height * p.value) ∧
    List.Chain' (fun p q => q.y = p.y + p.height + 8)
      (SankeyTwoCol.targetPositions nodes links height) ∧
    (∀ p ∈ SankeyTwoCol.sourcePositions nodes links height,
      p.height = p.value / SankeyTwoCol.totalValue links *
        SankeyTwoCol.availableHeight height * 0.8) ∧
    (∀ p ∈ SankeyTwoCol.sourcePositions nodes links height,
     ∀ q ∈ SankeyTwoCol.sourcePositions nodes links height,
      p.height * q.value = q.height * p.value) := by
  refine ⟨?_, placeColumn_chain 8 _ _ _, SankeyTwoCol.sourcePositions_height nodes links height, ?_⟩
  · intro p hp q hq hpu hqu
    have hph := SankeyTwoCol.targetPositions_height nodes links height p hp
    have hqh := SankeyTwoCol.targetPositions_height nodes links height q hq
    rw [hph, hqh]
    unfold SankeyTwoCol.clampedHeight
    rw [max_eq_left hpu, max_eq_left hqu]
    ring
  · intro p hp q hq
    rw [SankeyTwoCol.sourcePositions_height nodes links height p hp,
        SankeyTwoCol.sourcePositions_height nodes links height q hq]
    ring

theorem targetPositions_example :
    SankeyTwoCol.targetPositions ["A", "B", "C"] [⟨"A", "B", 100⟩, ⟨"A", "C", 300⟩] 400 =
    [⟨"C", 76, 180, 300⟩, ⟨"B", 264, 60, 100⟩] := by
  norm_num +decide [SankeyTwoCol.targetPositions, SankeyTwoCol.sortedTargetNodes,
    SankeyTwoCol.targetNodes, SankeyTwoCol.nodeValue, inflow, outflow,
    SankeyTwoCol.totalValue, SankeyTwoCol.linkIds, maxListQ,
    SankeyTwoCol.availableHeight, SankeyTwoCol.targetStartY,
    SankeyTwoCol.totalTargetHeight, SankeyTwoCol.totalGapHeight,
    SankeyTwoCol.clampedHeight, sortDesc, insertDesc, placeColumn,
    List.filter_cons, List.filter_nil, List.any_cons, List.any_nil,
    List.map_cons, List.map_nil, List.sum_cons, List.sum_nil,
    List.foldl_cons, List.foldl_nil,
    List.dedup_cons_of_mem, List.dedup_cons_of_not_mem, List.dedup_nil,
    max_def]

theorem totalValue_example :
    SankeyTwoCol.totalValue [⟨"A", "B", 100⟩, ⟨"A", "C", 300⟩] = 400 := by
  norm_num +decide [SankeyTwoCol.totalValue, SankeyTwoCol.linkIds, SankeyTwoCol.nodeValue,
    inflow, outflow, maxListQ,
    List.filter_cons, List.filter_nil, List.map_cons, List.map_nil,
    List.sum_cons, List.sum_nil, List.foldl_cons, List.foldl_nil,
    List.dedup_cons_of_mem, List.dedup_cons_of_not_mem, List.dedup_nil, max_def]

theorem c3_proportional_heights_witness :
    (Pos.mk "C" 76 180 300).height * (Pos.mk "B" 264 60 100).value =
      (Pos.mk "B" 264 60 100).height * (Pos.mk "C" 76 180 300).value ∧
    List.Chain' (fun p q => q.y = p.y + p.height + 8)
      (SankeyTwoCol.targetPositions ["A", "B", "C"]
        [⟨"A", "B", 100⟩, ⟨"A", "C", 300⟩] 400) :=
  ⟨(c3_proportional_heights ["A", "B", "C"] [⟨"A", "B", 100⟩, ⟨"A", "C", 300⟩] 400).1
      (Pos.mk "C" 76 180 300) (by rw [targetPositions_example]; simp)
      (Pos.mk "B" 264 60 100) (by rw [targetPositions_example]; simp)
      (by rw [totalValue_example]; norm_num [SankeyTwoCol.availableHeight])
      (by rw [totalValue_example]; norm_num [SankeyTwoCol.availableHeight]),
   (c3_proportional_heights ["A", "B", "C"] [⟨"A", "B", 100⟩, ⟨"A", "C", 300⟩] 400).2.1⟩

theorem sourcePositions_example :
    SankeyTwoCol.sourcePositions ["A", "B", "C"] [⟨"A", "B", 100⟩] 400 =
    [⟨"A", 80, 240, 100⟩, ⟨"C", 200, 0, 0⟩] := by
  norm_num +decide [SankeyTwoCol.sourcePositions, SankeyTwoCol.sourceNodes,
    SankeyTwoCol.nodeValue, inflow, outflow,
    SankeyTwoCol.totalValue, SankeyTwoCol.linkIds, maxListQ,
    SankeyTwoCol.availableHeight,
    List.filter_cons, List.filter_nil, List.any_cons, List.any_nil,
    List.map_cons, List.map_nil, List.sum_cons, List.sum_nil,
    List.foldl_cons, List.foldl_nil,
    List.dedup_cons_of_mem, List.dedup_cons_of_not_mem, List.dedup_nil, max_def]

theorem c5_min_height_counterexample :
    ¬ (∀ p ∈ SankeyTwoCol.sourcePositions ["A", "B", "C"] [⟨"A", "B", 100⟩] 400,
        (15 : ℚ) ≤ p.height) := by
  rw [sourcePositions_example]
  intro hall
  have h := hall ⟨"C", 200, 0, 0⟩ (by simp)
  norm_num at h

/-- Claim C5 (amended): only the stacked target-column node heights are
floored at the 15-pixel minimum; source-column node heights are exactly
`value / totalValue × availableHeight × 0.8` with no floor, so an unlinked
(zero-value) node in the source column is rendered with height 0. -/
theorem c5_min_height (nodes : List String) (links : List SLink) (height : ℚ) :
    (∀ p ∈ SankeyTwoCol.targetPositions nodes links height, (15 : ℚ) ≤ p.height) ∧
    (∀ p ∈ SankeyTwoCol.sourcePositions nodes links height,
      p.height = p.value / SankeyTwoCol.totalValue links *
        SankeyTwoCol.availableHeight height * 0.8) := by
  refine ⟨?_, SankeyTwoCol.sourcePositions_height nodes links height⟩
  intro p hp
  rw [SankeyTwoCol.targetPositions_height nodes links height p hp]
  exact le_max_right _ _

theorem c5_min_height_witness : (15 : ℚ) ≤ (Pos.mk "B" 264 60 100).height :=
  (c5_min_height ["A", "B", "C"] [⟨"A", "B", 100⟩, ⟨"A", "C", 300⟩] 400).1
    (Pos.mk "B" 264 60 100) (by rw [targetPositions_example]; simp)

/-- Claim C4: for every rendered link of the four-column Sankey layout with
a positive endpoint total, the ribbon thickness at the source end is the
link's share of the source node's total flow times the source node's
height, and the thickness at the target end is the link's share of the
target node's total flow times the target node's height. -/
theorem c4_link_thickness (nodes : List String) (links : List SLink) (width height : ℚ)
    (l : SLink) (ts tt : ℚ) (s t : Pos)
    (hmem : (l, ts, tt) ∈ SankeyFourCol.linkThicknesses nodes links width height)
    (hfs : SankeyFourCol.findPos (SankeyFourCol.allPositions nodes links width height)
      l.source = some s)
    (hft : SankeyFourCol.findPos (SankeyFourCol.allPositions nodes links width height)
      l.target = some t) :
    (0 < SankeyFourCol.updatedNodeValue nodes links l.source →
      ts = l.value / SankeyFourCol.updatedNodeValue nodes links l.source * s.height) ∧
    (0 < SankeyFourCol.updatedNodeValue nodes links l.target →
      tt = l.value / SankeyFourCol.updatedNodeValue nodes links l.target * t.height) := by
  simp only [SankeyFourCol.linkThicknesses] at hmem
  rcases List.mem_filterMap.mp hmem with ⟨l0, _, hf⟩
  cases hfs0 : SankeyFourCol.findPos (SankeyFourCol.allPositions nodes links width height)
      l0.source with
  | none => rw [hfs0] at hf; simp at hf
  | some s0 =>
      cases hft0 : SankeyFourCol.findPos (SankeyFourCol.allPositions nodes links width height)
          l0.target with
      | none => rw [hfs0, hft0] at hf; simp at hf
      | some t0 =>
          rw [hfs0, hft0] at hf
          simp only [Option.some.injEq, Prod.mk.injEq] at hf
          rcases hf with ⟨rfl, hts, htt⟩
          have hs0 : s0 = s := by
            rw [hfs0] at hfs
            exact Option.some.inj hfs
          have ht0 : t0 = t := by
            rw [hft0] at hft
            exact Option.some.inj hft
          subst hs0
          subst ht0
          constructor
          · intro hpos
            rw [← hts, if_pos hpos]
          · intro hpos
            rw [← htt, if_pos hpos]

theorem allPositions_example4 :
    SankeyFourCol.allPositions ["S", "income", "FOOD"]
      [⟨"S", "income", 100⟩, ⟨"income", "FOOD", 100⟩] 800 400 =
    [⟨"S", 15, 148, 100⟩, ⟨"income", 15, 148, 100⟩,
     ⟨"total-expenses", 15, 148, 100⟩, ⟨"FOOD", 15, 148, 100⟩] := by
  norm_num +decide [SankeyFourCol.allPositions, SankeyFourCol.col1Positions,
    SankeyFourCol.col2Position, SankeyFourCol.col3Positions, SankeyFourCol.col4Positions,
    SankeyFourCol.verticalPadding, SankeyFourCol.incomeIncoming, SankeyFourCol.incomeOutgoing,
    SankeyFourCol.incomeValue, SankeyFourCol.actualIncome, SankeyFourCol.nodeValue,
    SankeyFourCol.categoryNodes, SankeyFourCol.incomeSourceCategories, SankeyFourCol.rightNodes,
    SankeyFourCol.savingsNodes, SankeyFourCol.expenseNodes, SankeyFourCol.availableHeight,
    SankeyFourCol.totalValue, SankeyFourCol.totalExpensesValue, SankeyFourCol.savingsValue,
    SankeyFourCol.incomeHeight, SankeyFourCol.savingsHeight, SankeyFourCol.totalExpensesHeight,
    SankeyFourCol.col3Gap, SankeyFourCol.totalExpensesY, SankeyFourCol.clampedHeight,
    inflow, outflow, placeColumn, sortDesc, insertDesc,
    List.filter_cons, List.filter_nil, List.any_cons, List.any_nil,
    List.map_cons, List.map_nil, List.sum_cons, List.sum_nil,
    List.foldl_cons, List.foldl_nil, max_def]

theorem linkThicknesses_example4 :
    SankeyFourCol.linkThicknesses ["S", "income", "FOOD"]
      [⟨"S", "income", 100⟩, ⟨"income", "FOOD", 100⟩] 800 400 =
    [(⟨"S", "income", 100⟩, 148, 148), (⟨"income", "total-expenses", 100⟩, 148, 148),
     (⟨"total-expenses", "FOOD", 100⟩, 148, 148)] := by
  rw [SankeyFourCol.linkThicknesses, allPositions_example4]
  norm_num +decide [SankeyFourCol.modifiedLinks,
    SankeyFourCol.incomeIncoming, SankeyFourCol.incomeOutgoing,
    SankeyFourCol.incomeValue, SankeyFourCol.nodeValue,
    SankeyFourCol.categoryNodes, SankeyFourCol.incomeSourceCategories, SankeyFourCol.rightNodes,
    SankeyFourCol.savingsNodes, SankeyFourCol.expenseNodes,
    SankeyFourCol.totalExpensesValue, SankeyFourCol.savingsValue,
    SankeyFourCol.updatedNodeValue, SankeyFourCol.findPos,
    inflow, outflow,
    List.filter_cons, List.filter_nil, List.any_cons, List.any_nil,
    List.map_cons, List.map_nil, List.sum_cons, List.sum_nil,
    List.filterMap_cons, List.filterMap_nil,
    List.find?_cons, List.find?_nil, cond_true, cond_false, max_def]

theorem updatedNodeValue_income_example4 :
    SankeyFourCol.updatedNodeValue ["S", "income", "FOOD"]
      [⟨"S", "income", 100⟩, ⟨"income", "FOOD", 100⟩] "income" = 100 := by
  norm_num +decide [SankeyFourCol.updatedNodeValue, SankeyFourCol.incomeValue,
    SankeyFourCol.incomeIncoming, SankeyFourCol.incomeOutgoing, inflow, outflow,
    List.filter_cons, List.filter_nil, List.map_cons, List.map_nil,
    List.sum_cons, List.sum_nil, max_def]

theorem c4_link_thickness_witness :
    (148 : ℚ) = (SLink.mk "income" "total-expenses" 100).value /
      SankeyFourCol.updatedNodeValue ["S", "income", "FOOD"]
        [⟨"S", "income", 100⟩, ⟨"income", "FOOD", 100⟩]
        (SLink.mk "income" "total-expenses" 100).source *
      (Pos.mk "income" 15 148 100).height :=
  (c4_link_thickness ["S", "income", "FOOD"]
      [⟨"S", "income", 100⟩, ⟨"income", "FOOD", 100⟩] 800 400
      (SLink.mk "income" "total-expenses" 100) 148 148
      (Pos.mk "income" 15 148 100) (Pos.mk "total-expenses" 15 148 100)
      (by rw [linkThicknesses_example4]; simp)
      (by rw [allPositions_example4]; norm_num +decide [SankeyFourCol.findPos,
        List.find?_cons, List.find?_nil, cond_true, cond_false])
      (by rw [allPositions_example4]; norm_num +decide [SankeyFourCol.findPos,
        List.find?_cons, List.find?_nil, cond_true, cond_false])).1
    (by rw [updatedNodeValue_income_example4]; norm_num)

namespace SankeyFourCol

theorem incomeValue_pos (nodes : List String) (links : List SLink)
    (hpos : ∀ l ∈ links, 0 < l.value)
    (htev : 0 < totalExpensesValue nodes links) : 0 < incomeValue links := by
  have hne : expenseNodes nodes links ≠ [] := by
    intro he
    unfold totalExpensesValue at htev
    rw [he] at htev
    simp at htev
  obtain ⟨n, hn⟩ := List.exists_mem_of_ne_nil _ hne
  have hr : n ∈ rightNodes nodes links := List.mem_of_mem_filter hn
  have hany : links.any (fun l => l.source == "income" && l.target == n) = true :=
    (List.mem_filter.mp hr).2
  rcases List.any_eq_true.mp hany with ⟨l, hl, hlp⟩
  have hsrc : l.source = "income" := by
    have hand := (Bool.and_eq_true _ _).mp hlp
    exact beq_iff_eq.mp hand.1
  have hout : 0 < incomeOutgoing links := by
    have hmem : l ∈ links.filter (fun l => l.source == "income") :=
      List.mem_filter.mpr ⟨hl, by simp [hsrc]⟩
    apply List.sum_pos
    · intro x hx
      rcases List.mem_map.mp hx with ⟨l2, hl2, rfl⟩
      exact hpos l2 (List.mem_of_mem_filter hl2)
    · intro hnil
      rw [List.map_eq_nil_iff] at hnil
      rw [hnil] at hmem
      simp at hmem
  exact lt_max_of_lt_right hout

end SankeyFourCol

/-- Claim C6: whenever the total expense value is positive, the four-column
layout places a synthetic `total-expenses` node in column 3 whose value is
the sum of the values of the expense-category nodes (the nodes other than
SAVINGS receiving a link from `income`) and whose height is that sum
divided by the income node's value, times the income node's height.
Link values are assumed positive (Sankey edge weights). -/
theorem c6_total_expenses_node (nodes : List String) (links : List SLink) (width height : ℚ)
    (hpos : ∀ l ∈ links, 0 < l.value)
    (htev : 0 < SankeyFourCol.totalExpensesValue nodes links) :
    (∃ p ∈ SankeyFourCol.col3Positions nodes links width height, p.id = "total-expenses") ∧
    (∀ p ∈ SankeyFourCol.col3Positions nodes links width height, p.id = "total-expenses" →
      p.value = SankeyFourCol.totalExpensesValue nodes links ∧
      p.height = SankeyFourCol.totalExpensesValue nodes links / SankeyFourCol.incomeValue links *
        SankeyFourCol.incomeHeight links width height) := by
  have hiv := SankeyFourCol.incomeValue_pos nodes links hpos htev
  have hteh : SankeyFourCol.totalExpensesHeight nodes links width height =
      SankeyFourCol.totalExpensesValue nodes links / SankeyFourCol.incomeValue links *
        SankeyFourCol.incomeHeight links width height := by
    unfold SankeyFourCol.totalExpensesHeight
    rw [if_pos ⟨htev, hiv⟩]
  constructor
  · refine ⟨⟨"total-expenses", SankeyFourCol.totalExpensesY nodes links width height,
      SankeyFourCol.totalExpensesHeight nodes links width height,
      SankeyFourCol.totalExpensesValue nodes links⟩, ?_, rfl⟩
    unfold SankeyFourCol.col3Positions
    rw [if_pos htev]
    simp
  · intro p hp hid
    unfold SankeyFourCol.col3Positions at hp
    rw [if_pos htev] at hp
    rcases List.mem_append.mp hp with hp | hp
    · by_cases hsv : 0 < SankeyFourCol.savingsValue nodes links
      · rw [if_pos hsv] at hp
        simp only [List.mem_singleton] at hp
        rw [hp] at hid
        simp at hid
      · rw [if_neg hsv] at hp
        simp at hp
    · simp only [List.mem_singleton] at hp
      rw [hp]
      exact ⟨rfl, hteh⟩

theorem totalExpensesValue_example6 :
    SankeyFourCol.totalExpensesValue ["SALARY", "income", "SAVINGS", "FOOD", "RENT"]
      [⟨"SALARY", "income", 1000⟩, ⟨"income", "SAVINGS", 200⟩,
       ⟨"income", "FOOD", 300⟩, ⟨"income", "RENT", 500⟩] = 800 := by
  norm_num +decide [SankeyFourCol.totalExpensesValue, SankeyFourCol.expenseNodes,
    SankeyFourCol.rightNodes, SankeyFourCol.categoryNodes, SankeyFourCol.nodeValue,
    SankeyFourCol.incomeValue, SankeyFourCol.incomeIncoming, SankeyFourCol.incomeOutgoing,
    inflow, outflow,
    List.filter_cons, List.filter_nil, List.any_cons, List.any_nil,
    List.map_cons, List.map_nil, List.sum_cons, List.sum_nil, max_def]

theorem c6_total_expenses_node_witness :
    (∃ p ∈ SankeyFourCol.col3Positions ["SALARY", "income", "SAVINGS", "FOOD", "RENT"]
        [⟨"SALARY", "income", 1000⟩, ⟨"income", "SAVINGS", 200⟩,
         ⟨"income", "FOOD", 300⟩, ⟨"income", "RENT", 500⟩] 800 400,
      p.id = "total-expenses") ∧
    (∀ p ∈ SankeyFourCol.col3Positions ["SALARY", "income", "SAVINGS", "FOOD", "RENT"]
        [⟨"SALARY", "income", 1000⟩, ⟨"income", "SAVINGS", 200⟩,
         ⟨"income", "FOOD", 300⟩, ⟨"income", "RENT", 500⟩] 800 400,
      p.id = "total-expenses" →
      p.value = SankeyFourCol.totalExpensesValue ["SALARY", "income", "SAVINGS", "FOOD", "RENT"]
        [⟨"SALARY", "income", 1000⟩, ⟨"income", "SAVINGS", 200⟩,
         ⟨"income", "FOOD", 300⟩, ⟨"income", "RENT", 500⟩] ∧
      p.height = SankeyFourCol.totalExpensesValue ["SALARY", "income", "SAVINGS", "FOOD", "RENT"]
        [⟨"SALARY", "income", 1000⟩, ⟨"income", "SAVINGS", 200⟩,
         ⟨"income", "FOOD", 300⟩, ⟨"income", "RENT", 500⟩] /
        SankeyFourCol.incomeValue
          [⟨"SALARY", "income", 1000⟩, ⟨"income", "SAVINGS", 200⟩,
           ⟨"income", "FOOD", 300⟩, ⟨"income", "RENT", 500⟩] *
        SankeyFourCol.incomeHeight
          [⟨"SALARY", "income", 1000⟩, ⟨"income", "SAVINGS", 200⟩,
           ⟨"income", "FOOD", 300⟩, ⟨"income", "RENT", 500⟩] 800 400) :=
  c6_total_expenses_node ["SALARY", "income", "SAVINGS", "FOOD", "RENT"]
    [⟨"SALARY", "income", 1000⟩, ⟨"income", "SAVINGS", 200⟩,
     ⟨"income", "FOOD", 300⟩, ⟨"income", "RENT", 500⟩] 800 400
    (by
      intro l hl
      simp only [List.mem_cons, List.not_mem_nil, or_false] at hl
      rcases hl with rfl | rfl | rfl | rfl <;> norm_num)
    (by rw [totalExpensesValue_example6]; norm_num)

theorem c1_flow_conservation_counterexample :
    inflow (sankeyDataLinks [⟨"SALARY", 100⟩] [⟨"FOOD", 30⟩] 50) "income" = 100 ∧
    outflow (sankeyDataLinks [⟨"SALARY", 100⟩] [⟨"FOOD", 30⟩] 50) "income" = 80 ∧
    ¬ (inflow (sankeyDataLinks [⟨"SALARY", 100⟩] [⟨"FOOD", 30⟩] 50) "income" =
       outflow (sankeyDataLinks [⟨"SALARY", 100⟩] [⟨"FOOD", 30⟩] 50) "income") := by
  norm_num +decide [inflow, outflow, sankeyDataLinks,
    List.filter_cons, List.filter_nil, List.map_cons, List.map_nil,
    List.sum_cons, List.sum_nil]

theorem string_append_length (a b : String) : (a ++ b).length = a.length + b.length := by
  show (a.data ++ b.data).length = a.data.length + b.data.length
  exact List.length_append a.data b.data

theorem income_prefix_ne_income (n : String) : ("income-" ++ n) ≠ "income" := by
  intro h
  have hlen := congrArg String.length h
  rw [string_append_length] at hlen
  have h7 : ("income-" : String).length = 7 := by decide
  have h6 : ("income" : String).length = 6 := by decide
  rw [h7, h6] at hlen
  omega

theorem expense_prefix_ne_income (n : String) : ("expense-" ++ n) ≠ "income" := by
  intro h
  have hlen := congrArg String.length h
  rw [string_append_length] at hlen
  have h8 : ("expense-" : String).length = 8 := by decide
  have h6 : ("income" : String).length = 6 := by decide
  rw [h8, h6] at hlen
  omega

theorem map_slink_value_sum (cs : List CatVal) (f : CatVal → SLink)
    (hf : ∀ c, (f c).value = c.value) :
    ((cs.map f).map SLink.value).sum = (cs.map CatVal.value).sum := by
  rw [List.map_map]
  exact congrArg List.sum (List.map_congr_left fun c _ => hf c)

theorem inflow_sankeyData (incomes expenses : List CatVal) (savingsAmount : ℚ) :
    inflow (sankeyDataLinks incomes expenses savingsAmount) "income" = sumVals incomes := by
  unfold inflow sankeyDataLinks sumVals
  rw [List.filter_append, List.filter_append]
  have h1 : (incomes.map (fun cat => SLink.mk ("income-" ++ cat.name) "income" cat.value)).filter
      (fun l => l.target == "income") =
      incomes.map (fun cat => SLink.mk ("income-" ++ cat.name) "income" cat.value) := by
    apply List.filter_eq_self.mpr
    intro x hx
    rcases List.mem_map.mp hx with ⟨c, _, rfl⟩
    simp
  have h2 : ((if 0 < savingsAmount then [SLink.mk "income" "SAVINGS" savingsAmount]
      else []).filter (fun l => l.target == "income")) = [] := by
    split_ifs <;> simp
  have h3 : (expenses.map (fun cat => SLink.mk "income" ("expense-" ++ cat.name) cat.value)).filter
      (fun l => l.target == "income") = [] := by
    apply List.filter_eq_nil_iff.mpr
    intro x hx
    rcases List.mem_map.mp hx with ⟨c, _, rfl⟩
    simp [expense_prefix_ne_income]
  rw [h1, h2, h3]
  simp only [List.map_append, List.sum_append, List.map_nil, List.sum_nil,
    List.nil_append, List.append_nil]
  exact map_slink_value_sum incomes _ (fun c => rfl)

theorem outflow_sankeyData (incomes expenses : List CatVal) (savingsAmount : ℚ) :
    outflow (sankeyDataLinks incomes expenses savingsAmount) "income" =
      (if 0 < savingsAmount then savingsAmount else 0) + sumVals expenses := by
  unfold outflow sankeyDataLinks sumVals
  rw [List.filter_append, List.filter_append]
  have h1 : (incomes.map (fun cat => SLink.mk ("income-" ++ cat.name) "income" cat.value)).filter
      (fun l => l.source == "income") = [] := by
    apply List.filter_eq_nil_iff.mpr
    intro x hx
    rcases List.mem_map.mp hx with ⟨c, _, rfl⟩
    simp [income_prefix_ne_income]
  have h2 : ((if 0 < savingsAmount then [SLink.mk "income" "SAVINGS" savingsAmount]
      else []).filter (fun l => l.source == "income")) =
      (if 0 < savingsAmount then [SLink.mk "income" "SAVINGS" savingsAmount] else []) := by
    split_ifs <;> simp
  have h3 : (expenses.map (fun cat => SLink.mk "income" ("expense-" ++ cat.name) cat.value)).filter
      (fun l => l.source == "income") =
      expenses.map (fun cat => SLink.mk "income" ("expense-" ++ cat.name) cat.value) := by
    apply List.filter_eq_self.mpr
    intro x hx
    rcases List.mem_map.mp hx with ⟨c, _, rfl⟩
    simp
  rw [h1, h2, h3]
  have hexp := map_slink_value_sum expenses
    (fun cat => SLink.mk "income" ("expense-" ++ cat.name) cat.value) (fun c => rfl)
  split_ifs with hsa
  · simp only [List.map_append, List.sum_append, List.map_nil, List.sum_nil,
      List.nil_append, List.map_cons, List.sum_cons, List.cons_append]
    rw [hexp]
  · simp only [List.map_append, List.sum_append, List.map_nil, List.sum_nil,
      List.nil_append]
    rw [hexp, zero_add]

namespace SankeyFourCol

theorem nodeValue_nonneg (links : List SLink) (id : String) (hid : id ≠ "income")
    (hpos : ∀ l ∈ links, 0 < l.value) : 0 ≤ nodeValue links id := by
  unfold nodeValue outflow inflow
  rw [if_neg (by simp [hid] : ¬ (id == "income") = true)]
  apply add_nonneg
  · apply List.sum_nonneg
    intro x hx
    rcases List.mem_map.mp hx with ⟨l, hl, rfl⟩
    exact le_of_lt (hpos l (List.mem_of_mem_filter hl))
  · apply List.sum_nonneg
    intro x hx
    rcases List.mem_map.mp hx with ⟨l, hl, rfl⟩
    exact le_of_lt (hpos l (List.mem_of_mem_filter hl))

theorem expense_ne_income (nodes : List String) (links : List SLink) :
    ∀ n ∈ expenseNodes nodes links, n ≠ "income" := by
  intro n hn
  have h1 : n ∈ rightNodes nodes links := List.mem_of_mem_filter hn
  have h2 : n ∈ categoryNodes nodes := List.mem_of_mem_filter h1
  have h3 := (List.mem_filter.mp h2).2
  simpa using h3

theorem expense_ne_te (nodes : List String) (links : List SLink)
    (hfresh : ∀ l ∈ links, l.source ≠ "total-expenses" ∧ l.target ≠ "total-expenses") :
    ∀ n ∈ expenseNodes nodes links, n ≠ "total-expenses" := by
  intro n hn
  have hr : n ∈ rightNodes nodes links := List.mem_of_mem_filter hn
  have hany := (List.mem_filter.mp hr).2
  rcases List.any_eq_true.mp hany with ⟨l, hl, hlp⟩
  have htgt : l.target = n := beq_iff_eq.mp ((Bool.and_eq_true _ _).mp hlp).2
  intro he
  exact (hfresh l hl).2 (htgt.trans he)

theorem sum_filterMap_te (links : List SLink) :
    ∀ ns : List String,
      ((ns.filterMap (fun n => if 0 < nodeValue links n then
          some (SLink.mk "total-expenses" n (nodeValue links n)) else none)).map
        SLink.value).sum =
      (ns.map (fun n => if 0 < nodeValue links n then nodeValue links n else 0)).sum := by
  intro ns
  induction ns with
  | nil => simp
  | cons n rest ih =>
      by_cases h : 0 < nodeValue links n
      · simp [List.filterMap_cons, h, ih]
      · simp [List.filterMap_cons, h, ih]

theorem modifiedLinks_te_conservation (nodes : List String) (links : List SLink)
    (hpos : ∀ l ∈ links, 0 < l.value)
    (hfresh : ∀ l ∈ links, l.source ≠ "total-expenses" ∧ l.target ≠ "total-expenses") :
    inflow (modifiedLinks nodes links) "total-expenses" =
      outflow (modifiedLinks nodes links) "total-expenses" := by
  have htev_eq : totalExpensesValue nodes links =
      ((expenseNodes nodes links).map (nodeValue links)).sum := rfl
  have htev_nonneg : 0 ≤ totalExpensesValue nodes links := by
    rw [htev_eq]
    apply List.sum_nonneg
    intro x hx
    rcases List.mem_map.mp hx with ⟨n, hn, rfl⟩
    exact nodeValue_nonneg links n (expense_ne_income nodes links n hn) hpos
  have hin : inflow (modifiedLinks nodes links) "total-expenses" =
      if 0 < totalExpensesValue nodes links then totalExpensesValue nodes links else 0 := by
    unfold inflow modifiedLinks
    rw [List.filter_append, List.filter_append, List.filter_append]
    have q1 : (links.filter (fun l => l.target == "income")).filter
        (fun l => l.target == "total-expenses") = [] := by
      apply List.filter_eq_nil_iff.mpr
      intro x hx
      have hxi : x.target = "income" := by
        have := (List.mem_filter.mp hx).2
        simpa using this
      simp [hxi]
    have q2 : ((if 0 < savingsValue nodes links then
        [SLink.mk "income" "SAVINGS" (savingsValue nodes links)] else []).filter
        (fun l => l.target == "total-expenses")) = [] := by
      split_ifs <;> simp
    have q3 : ((if 0 < totalExpensesValue nodes links then
        [SLink.mk "income" "total-expenses" (totalExpensesValue nodes links)] else []).filter
        (fun l => l.target == "total-expenses")) =
        (if 0 < totalExpensesValue nodes links then
        [SLink.mk "income" "total-expenses" (totalExpensesValue nodes links)] else []) := by
      split_ifs <;> simp
    have q4 : (((expenseNodes nodes links).filterMap (fun n =>
        if 0 < nodeValue links n then some (SLink.mk "total-expenses" n (nodeValue links n))
        else none)).filter (fun l => l.target == "total-expenses")) = [] := by
      apply List.filter_eq_nil_iff.mpr
      intro x hx
      rcases List.mem_filterMap.mp hx with ⟨n, hn, hf⟩
      have hne := expense_ne_te nodes links hfresh n hn
      by_cases h : 0 < nodeValue links n
      · rw [if_pos h] at hf
        cases hf
        simpa using hne
      · rw [if_neg h] at hf
        cases hf
    rw [q1, q2, q3, q4]
    split_ifs <;> simp
  have hout : outflow (modifiedLinks nodes links) "total-expenses" =
      totalExpensesValue nodes links := by
    unfold outflow modifiedLinks
    rw [List.filter_append, List.filter_append, List.filter_append]
    have r1 : (links.filter (fun l => l.target == "income")).filter
        (fun l => l.source == "total-expenses") = [] := by
      apply List.filter_eq_nil_iff.mpr
      intro x hx
      have hxs := (hfresh x (List.mem_of_mem_filter hx)).1
      simp [hxs]
    have r2 : ((if 0 < savingsValue nodes links then
        [SLink.mk "income" "SAVINGS" (savingsValue nodes links)] else []).filter
        (fun l => l.source == "total-expenses")) = [] := by
      split_ifs <;> simp
    have r3 : ((if 0 < totalExpensesValue nodes links then
        [SLink.mk "income" "total-expenses" (totalExpensesValue nodes links)] else []).filter
        (fun l => l.source == "total-expenses")) = [] := by
      split_ifs <;> simp
    have r4 : (((expenseNodes nodes links).filterMap (fun n =>
        if 0 < nodeValue links n then some (SLink.mk "total-expenses" n (nodeValue links n))
        else none)).filter (fun l => l.source == "total-expenses")) =
        ((expenseNodes nodes links).filterMap (fun n =>
        if 0 < nodeValue links n then some (SLink.mk "total-expenses" n (nodeValue links n))
        else none)) := by
      apply List.filter_eq_self.mpr
      intro x hx
      rcases List.mem_filterMap.mp hx with ⟨n, hn, hf⟩
      by_cases h : 0 < nodeValue links n
      · rw [if_pos h] at hf
        cases hf
        simp
      · rw [if_neg h] at hf
        cases hf
    rw [r1, r2, r3, r4]
    simp only [List.nil_append, List.map_nil, List.sum_nil]
    rw [sum_filterMap_te]
    rw [htev_eq]
    apply congrArg List.sum
    apply List.map_congr_left
    intro n hn
    by_cases h : 0 < nodeValue links n
    · rw [if_pos h]
    · rw [if_neg h]
      exact (le_antisymm (not_lt.mp h)
        (nodeValue_nonneg links n (expense_ne_income nodes links n hn) hpos)).symm
  rw [hin, hout]
  split_ifs with h
  · rfl
  · exact le_antisymm htev_nonneg (not_lt.mp h)

end SankeyFourCol

/-- Claim C1 (amended): in the Sankey graph YearlyDashboard builds, flow is
conserved at the `income` node exactly when the savings amount that enters
the graph (the backend-supplied savings when positive, otherwise 0, since
no SAVINGS link is emitted then) equals total income minus total expenses;
the client performs no such reconciliation, so a backend summary can
violate it.  The synthetic `total-expenses` node of the four-column layout
conserves flow for every graph with positive link values in which no
original link touches the id `total-expenses`. -/
theorem c1_flow_conservation (incomes expenses : List CatVal) (savingsAmount : ℚ)
    (nodes : List String) (links : List SLink)
    (hpos : ∀ l ∈ links, 0 < l.value)
    (hfresh : ∀ l ∈ links, l.source ≠ "total-expenses" ∧ l.target ≠ "total-expenses") :
    (inflow (sankeyDataLinks incomes expenses savingsAmount) "income" =
       outflow (sankeyDataLinks incomes expenses savingsAmount) "income" ↔
     (if 0 < savingsAmount then savingsAmount else 0) =
       sumVals incomes - sumVals expenses) ∧
    inflow (SankeyFourCol.modifiedLinks nodes links) "total-expenses" =
      outflow (SankeyFourCol.modifiedLinks nodes links) "total-expenses" := by
  constructor
  · rw [inflow_sankeyData, outflow_sankeyData]
    constructor
    · intro h
      linarith
    · intro h
      linarith
  · exact SankeyFourCol.modifiedLinks_te_conservation nodes links hpos hfresh

theorem c1_flow_conservation_witness :
    (inflow (sankeyDataLinks [⟨"SALARY", 100⟩] [⟨"FOOD", 30⟩] 70) "income" =
       outflow (sankeyDataLinks [⟨"SALARY", 100⟩] [⟨"FOOD", 30⟩] 70) "income" ↔
     (if (0 : ℚ) < 70 then (70 : ℚ) else 0) =
       sumVals [⟨"SALARY", 100⟩] - sumVals [⟨"FOOD", 30⟩]) ∧
    inflow (SankeyFourCol.modifiedLinks ["S", "income", "FOOD"]
        [⟨"S", "income", 100⟩, ⟨"income", "FOOD", 100⟩]) "total-expenses" =
      outflow (SankeyFourCol.modifiedLinks ["S", "income", "FOOD"]
        [⟨"S", "income", 100⟩, ⟨"income", "FOOD", 100⟩]) "total-expenses" :=
  c1_flow_conservation [⟨"SALARY", 100⟩] [⟨"FOOD", 30⟩] 70
    ["S", "income", "FOOD"] [⟨"S", "income", 100⟩, ⟨"income", "FOOD", 100⟩]
    (by
      intro l hl
      simp only [List.mem_cons, List.not_mem_nil, or_false] at hl
      rcases hl with rfl | rfl <;> norm_num)
    (by
      intro l hl
      simp only [List.mem_cons, List.not_mem_nil, or_false] at hl
      rcases hl with rfl | rfl <;> exact ⟨by decide, by decide⟩)
